import Mathlib

/-!
Verification of the distributed brute-force search engine of
random.daolyap.dev (src/app.js): partition planning, worker batch execution,
coordinator event handling, and the time estimator.

Machine integers are modelled as `Nat`: every integer the engine manipulates
(index ranges up to 2^32, attempt counters, worker counts) stays far below
2^53, where float64 arithmetic on integers is exact, and the single use of
`Math.ceil` on a non-integer quotient is exact as well because the quotient's
distance to the nearest integer (at least 1/16) dwarfs the rounding error.
Strings are `String`, the worker / coordinator message protocol is explicit
data, each stateful handler becomes a pure state transformer, and each worker
loop becomes a function from its inputs to the finite trace of events it
posts.
-/

/-- A JavaScript value as far as the worker's `typeof target !== 'string'`
check can distinguish it: either a string or anything else. -/
inductive JSVal where
  | str (s : String)
  | nonString
deriving DecidableEq

/-- An event a worker posts to the coordinator (a `self.postMessage` payload
in `createWorkerCode`): progress, match, exhausted, error, or a message of an
unrecognized type (handled by the coordinator's final `else` branch).
`lastAttempt` is an `Option` because the worker initializes it to `null`. -/
inductive WorkerEvent where
  | progress (attempts : Nat) (lastAttempt : Option String) (workerId : Nat)
  | matched (value : String) (workerId : Nat)
  | exhausted (workerId : Nat)
  | error (message : String) (workerId : Nat)
  | unknown (workerId : Nat)
deriving DecidableEq

/-- Whether an event is a `progress` event. -/
def isProgressEv : WorkerEvent → Bool
  | .progress _ _ _ => true
  | _ => false

/-- The `attempts` field carried by a `progress` event, and 0 for every other
event (no other handler branch touches the attempt counter). -/
def eventAttempts : WorkerEvent → Nat
  | .progress a _ _ => a
  | _ => 0

/-- JS `s.padStart(n, c)`: left-pad `s` with `c` up to length `n`. -/
def padStart (s : String) (n : Nat) (c : Char) : String :=
  String.mk (List.replicate (n - s.length) c) ++ s

/-- `ENUMERATORS.otp_6.fromIndex` in the worker code:
`String(i).padStart(6, '0')`. -/
def otp6FromIndex (i : Nat) : String := padStart (toString i) 6 '0'

/-- `ENUMERATORS.hex_color.fromIndex` in the worker code:
`'#' + i.toString(16).padStart(6, '0').toUpperCase()`. -/
def hexColorFromIndex (i : Nat) : String :=
  "#" ++ (padStart (String.mk (Nat.toDigits 16 i)) 6 '0').toUpper

/-- `ENUMERATORS.ipv4.fromIndex` in the worker code: the dotted quad of the
four bytes of `i` (the JS `>>>` / `& 255` arithmetic on a value below 2^32
coincides with `Nat` shifts and masks). -/
def ipv4FromIndex (i : Nat) : String :=
  toString ((i >>> 24) &&& 255) ++ "." ++ toString ((i >>> 16) &&& 255) ++ "." ++
    toString ((i >>> 8) &&& 255) ++ "." ++ toString (i &&& 255)

/-- A sequential enumerator of the worker code: `{totalCount, fromIndex}`. -/
structure Enumerator where
  totalCount : Nat
  fromIndex : Nat → String

/-- The worker's `ENUMERATORS` table: only `hex_color` (`Math.pow(2, 24)`),
`otp_6` (`1000000`) and `ipv4` (`Math.pow(2, 32)`) have enumerators. -/
def ENUMERATORS (key : String) : Option Enumerator :=
  if key = "hex_color" then some ⟨2 ^ 24, hexColorFromIndex⟩
  else if key = "otp_6" then some ⟨1000000, otp6FromIndex⟩
  else if key = "ipv4" then some ⟨2 ^ 32, ipv4FromIndex⟩
  else none

/-- `Math.ceil(totalSpace / workerCount)` from the worker's sequential setup
(exact for the magnitudes involved, see the header comment). -/
def perWorker (total workerCount : Nat) : Nat :=
  (total + workerCount - 1) / workerCount

/-- Worker `i`'s half-open sequential index range:
`startIdx = workerId * perWorker`, `endIdx = min(startIdx + perWorker,
totalSpace)`. -/
def indexRange (total workerCount i : Nat) : Nat × Nat :=
  (i * perWorker total workerCount,
   min (i * perWorker total workerCount + perWorker total workerCount) total)

/-- The wordlist slice `startSimulation` sends worker `i`:
`chunkSize = Math.ceil(length / workerCount)` and
`wordlistData.slice(i * chunkSize, Math.min(i * chunkSize + chunkSize,
length))`. -/
def wordlistChunk (words : List String) (workerCount i : Nat) : List String :=
  let chunkSize := (words.length + workerCount - 1) / workerCount
  let s := i * chunkSize
  let e := min (s + chunkSize) words.length
  (words.drop s).take (e - s)

/-- One invocation of the worker's `runBatch` (Random mode), entered with
`running = true`.  `generateFn` is impure, so the stream of values it returns
is modelled by `g`, with `off` the number of calls made in earlier batches.
Returns the events posted by this invocation and whether a further batch is
scheduled (`false` exactly when a match halted the worker: the source
`return`s before the `requestIdleCallback` / `setTimeout` rescheduling and
sets `running = false`). -/
def runBatch (g : Nat → String) (target : String) (batchSize workerId off : Nat) :
    List WorkerEvent × Bool :=
  match (List.range batchSize).find? (fun j => g (off + j) == target) with
  | some j => ([WorkerEvent.matched (g (off + j)) workerId], false)
  | none =>
      ([WorkerEvent.progress batchSize
          (if batchSize = 0 then none else some (g (off + batchSize - 1))) workerId], true)

/-- The worker's `runSequentialBatch`, entered with `running = true` and
unfolded across its `requestIdleCallback` / `setTimeout` self-rescheduling:
the full finite trace of events posted from `startIdx` on.  A match `return`s
before rescheduling, so the trace ends at the `matched` event.  (`batchSize =
0` cannot occur in the program: the start handler replaces a falsy batch size
with 10000; the `[]` branch below only keeps the recursion total.) -/
def runSequentialBatch (f : Nat → String) (target : String) (batchSize workerId : Nat)
    (startIdx endIdx : Nat) : List WorkerEvent :=
  if _h1 : endIdx ≤ startIdx then [WorkerEvent.exhausted workerId]
  else if _h2 : batchSize = 0 then []
  else
    let batchEnd := min (startIdx + batchSize) endIdx
    match (List.range' startIdx (batchEnd - startIdx)).find? (fun i => f i == target) with
    | some i => [WorkerEvent.matched (f i) workerId]
    | none =>
        WorkerEvent.progress (batchEnd - startIdx) (some (f (batchEnd - 1))) workerId ::
          runSequentialBatch f target batchSize workerId batchEnd endIdx
termination_by endIdx - startIdx
decreasing_by
  omega

/-- The worker's `runWordlistBatch`, entered with `running = true` and
unfolded across its self-rescheduling, exactly parallel to
`runSequentialBatch` but reading `words[i]` over list indices. -/
def runWordlistBatch (words : List String) (target : String) (batchSize workerId : Nat)
    (offset : Nat) : List WorkerEvent :=
  if _h1 : words.length ≤ offset then [WorkerEvent.exhausted workerId]
  else if _h2 : batchSize = 0 then []
  else
    let batchEnd := min (offset + batchSize) words.length
    match (List.range' offset (batchEnd - offset)).find? (fun i => words.getD i "" == target) with
    | some i => [WorkerEvent.matched (words.getD i "") workerId]
    | none =>
        WorkerEvent.progress (batchEnd - offset) (some (words.getD (batchEnd - 1) "")) workerId ::
          runWordlistBatch words target batchSize workerId batchEnd
termination_by words.length - offset
decreasing_by
  omega

/-- The fields of a `start` message as the worker reads them.  Absent fields
are encoded by their JS-falsy defaults, matching how the worker coerces them:
`""` for `schemeKey` and `attackMethod` (both only tested for falsiness or
compared against fixed strings), `0` for `batchSize`, `workerId` and
`workerCount` (`|| 10000`, `|| 0`, `|| 1`), `[]` for `wordlistChunk`. -/
structure StartData where
  schemeKey : String
  target : JSVal
  batchSize : Nat
  workerId : Nat
  attackMethod : String
  workerCount : Nat
  wordlistChunk : List String
deriving DecidableEq

/-- A message arriving at the worker's `self.onmessage`.  `invalid` stands
for a missing or non-object `e.data`; `other` for an object whose `type` is
neither `start` nor `stop`. -/
inductive WorkerMsg where
  | invalid
  | start (d : StartData)
  | stop
  | other
deriving DecidableEq

/-- What delivering one message to a fresh worker does.  `noEvents`: the
handler returned without posting anything and without producing a candidate
(validation failure, `stop`, or an unrecognized type).  `posts evs`: the
worker posted exactly `evs` and halted.  `randomLoop`: the worker entered the
Random-mode `runBatch` loop (whose per-batch behaviour is `runBatch`). -/
inductive WorkerRun where
  | noEvents
  | posts (evs : List WorkerEvent)
  | randomLoop (schemeKey target : String) (batchSize workerId : Nat)
deriving DecidableEq

/-- The worker's `self.onmessage` handler.  `gens` is the worker's
`GENERATORS` table; its entries are impure random generators, so the table is
a parameter mapping a scheme key to the stream of values its generator
returns. -/
def workerOnMessage (gens : String → Option (Nat → String)) (msg : WorkerMsg) : WorkerRun :=
  match msg with
  | .invalid => .noEvents
  | .stop => .noEvents
  | .other => .noEvents
  | .start d =>
    if d.schemeKey = "" then .noEvents
    else
      match d.target with
      | .nonString => .noEvents
      | .str target =>
        let workerId := d.workerId
        let batchSize := if d.batchSize = 0 then 10000 else d.batchSize
        let attackMethod := if d.attackMethod = "" then "random" else d.attackMethod
        if attackMethod = "wordlist" then
          .posts (runWordlistBatch d.wordlistChunk target batchSize workerId 0)
        else if attackMethod = "sequential" then
          match ENUMERATORS d.schemeKey with
          | none =>
              .posts [WorkerEvent.error ("Sequential mode is not supported for scheme: " ++
                        d.schemeKey ++ ". Use Random mode instead.") workerId,
                      WorkerEvent.exhausted workerId]
          | some en =>
              let wc := if d.workerCount = 0 then 1 else d.workerCount
              let p := perWorker en.totalCount wc
              let startIdx := workerId * p
              let endIdx := min (startIdx + p) en.totalCount
              .posts (runSequentialBatch en.fromIndex target batchSize workerId startIdx endIdx)
        else
          match gens d.schemeKey with
          | none =>
              .posts [WorkerEvent.error ("Unknown scheme key: " ++ d.schemeKey ++
                        ". Make sure the scheme is defined in both SCHEMES (schemes.js) and GENERATORS (app.js createWorkerCode).")
                      workerId]
          | some _ => .randomLoop d.schemeKey target batchSize workerId

/-- The configuration `startSimulation` reads (instance fields and DOM
controls) at the moment it runs. -/
structure StartConfig where
  targetValue : Option String
  isRunning : Bool
  attackMethod : String
  workerCount : Nat
  batchSize : Nat
  selectedScheme : String
  wordlistData : Option (List String)
deriving DecidableEq

/-- Whether `startSimulation` returned before creating any worker
(`noSpawn`), or created its workers and posted each one a start message
(`spawned msgs`, in worker order). -/
inductive StartResult where
  | noSpawn
  | spawned (msgs : List StartData)
deriving DecidableEq

/-- `startSimulation`: the early validation returns (`!this.targetValue ||
this.isRunning`, and the wordlist check), then one worker per
`i < workerCount`, each sent its start message (with a wordlist chunk in
wordlist mode). -/
def startSimulation (cfg : StartConfig) : StartResult :=
  if cfg.targetValue = none ∨ cfg.isRunning = true then .noSpawn
  else if cfg.attackMethod = "wordlist" ∧ (cfg.wordlistData.getD []).length = 0 then .noSpawn
  else
    .spawned ((List.range cfg.workerCount).map fun i =>
      { schemeKey := cfg.selectedScheme
        target := JSVal.str (cfg.targetValue.getD "")
        batchSize := cfg.batchSize
        workerId := i
        attackMethod := cfg.attackMethod
        workerCount := cfg.workerCount
        wordlistChunk :=
          if cfg.attackMethod = "wordlist" then
            wordlistChunk (cfg.wordlistData.getD []) cfg.workerCount i
          else [] })

/-- The failure reason `showResult` receives: its `reason` parameter defaults
to `'maxAttempts'`; the only other value ever passed is `'exhausted'`. -/
inductive FailReason where
  | maxAttempts
  | exhausted
deriving DecidableEq

/-- The run outcome rendered by `showResult` (`noResult` before any call). -/
inductive Outcome where
  | noResult
  | found (value : String)
  | failed (reason : FailReason)
deriving DecidableEq

/-- The coordinator state `handleWorkerMessage` mutates: `workers` is
`this.workers.length` (reset to 0 by `stopSimulation`), `workerErrors` the
pushed error list, `exhaustedWorkers` the JS `Set` (kept as a duplicate-free
list), `outcome` the rendered result. -/
structure CoordState where
  isRunning : Bool
  workers : Nat
  totalAttempts : Nat
  attemptHistory : List (Option String × Nat)
  workerErrors : List (Nat × String)
  exhaustedWorkers : List Nat
  outcome : Outcome
deriving DecidableEq

/-- `stopSimulation`: stops and discards every worker (`this.workers = []`)
and clears the run flag. -/
def stopSimulation (s : CoordState) : CoordState :=
  { s with isRunning := false, workers := 0 }

/-- `showResult(true, matchValue)`. -/
def showResultFound (s : CoordState) (v : String) : CoordState :=
  { stopSimulation s with outcome := Outcome.found v }

/-- `showResult(false, null, reason)` (with `reason` defaulted to
`maxAttempts` when omitted, as in the all-workers-failed branch and the
budget check). -/
def showResultFailed (s : CoordState) (r : FailReason) : CoordState :=
  { stopSimulation s with outcome := Outcome.failed r }

/-- The failure message `showResult` renders for each failure reason. -/
def failureMessage : FailReason → String
  | .exhausted => "All workers exhausted their search space without finding a match."
  | .maxAttempts => "Maximum attempts reached without finding a match."

/-- `handleWorkerMessage` as a state transformer on one worker event.  The
handler never consults `isRunning`. -/
def handleWorkerMessage (s : CoordState) (e : WorkerEvent) : CoordState :=
  match e with
  | .progress attempts lastAttempt workerId =>
      { s with totalAttempts := s.totalAttempts + attempts,
               attemptHistory := ((lastAttempt, workerId) :: s.attemptHistory).take 10 }
  | .matched v _ => showResultFound s v
  | .error m workerId =>
      let errs := s.workerErrors ++ [(workerId, m)]
      let s1 := { s with workerErrors := errs }
      if 0 < s1.workers ∧ s1.workers ≤ errs.length then showResultFailed s1 .maxAttempts
      else s1
  | .exhausted workerId =>
      let ex := if workerId ∈ s.exhaustedWorkers then s.exhaustedWorkers
                else s.exhaustedWorkers ++ [workerId]
      let s1 := { s with exhaustedWorkers := ex }
      if 0 < s1.workers ∧ s1.workers ≤ ex.length + s1.workerErrors.length then
        showResultFailed s1 .exhausted
      else s1
  | .unknown _ => s

/-- The coordinator processing a finite sequence of worker events in arrival
order. -/
def coordFold (s : CoordState) (es : List WorkerEvent) : CoordState :=
  es.foldl handleWorkerMessage s

/-- The coordinator state right after `startSimulation` reset it and created
`n` workers. -/
def initCoordState (n : Nat) : CoordState :=
  { isRunning := true, workers := n, totalAttempts := 0, attemptHistory := [],
    workerErrors := [], exhaustedWorkers := [], outcome := Outcome.noResult }

/-- One tick of the `maxAttemptsCheck` interval: registered only when
`maxAttempts > 0`, it calls `showResult(false)` (reason defaulted to
`maxAttempts`) once `totalAttempts >= maxAttempts`. -/
def maxAttemptsCheck (maxAttempts : Nat) (s : CoordState) : CoordState :=
  if 0 < maxAttempts ∧ maxAttempts ≤ s.totalAttempts then showResultFailed s .maxAttempts
  else s

/-- `updateEstimation`: `combinations = Math.pow(2, scheme.bits)`, modelled
exactly over the rationals. -/
def combinations (bits : Nat) : ℚ := 2 ^ bits

/-- `updateEstimation`: `attemptsPerSecond = workerCount * speedPerWorker *
10` (the assumed ~10 batches per second). -/
def attemptsPerSecond (workerCount speedPerWorker : Nat) : ℚ :=
  (workerCount : ℚ) * (speedPerWorker : ℚ) * 10

/-- `updateEstimation`: `averageAttempts = combinations / 2`. -/
def averageAttempts (bits : Nat) : ℚ := combinations bits / 2

/-- `updateEstimation`: `estimatedSeconds = averageAttempts /
attemptsPerSecond`. -/
def estimatedSeconds (bits workerCount speedPerWorker : Nat) : ℚ :=
  averageAttempts bits / attemptsPerSecond workerCount speedPerWorker

/-- Ceiling-division cover: `workerCount` ranges of width `perWorker` reach
the whole space. -/
theorem le_mul_perWorker (total wc : Nat) (h0 : 0 < total) (hw : 0 < wc) :
    total ≤ wc * perWorker total wc := by
  have hd : wc * ((total + wc - 1) / wc) + (total + wc - 1) % wc = total + wc - 1 :=
    Nat.div_add_mod _ _
  have hm : (total + wc - 1) % wc < wc := Nat.mod_lt _ hw
  unfold perWorker
  generalize h : wc * ((total + wc - 1) / wc) = t at hd ⊢
  omega

/-- The index `k` lies in the `k / p`-th width-`p` window. -/
theorem div_bounds (k p : Nat) (hp : 0 < p) :
    k / p * p ≤ k ∧ k < k / p * p + p := by
  have hd : p * (k / p) + k % p = k := Nat.div_add_mod k p
  have hm : k % p < p := Nat.mod_lt _ hp
  rw [Nat.mul_comm]
  generalize h : p * (k / p) = t at hd ⊢
  generalize hr : k % p = r at hd hm
  omega

/-- C1: Sequential partition completeness.  For every scheme with an
enumerator and every `workerCount` in `[1,16]`, the per-worker index ranges
`[i * perWorker, min((i+1) * perWorker, totalCount()))` form an exact
partition of `[0, totalCount())`: every index is covered by exactly one
worker (no gaps, no overlaps); and, in particular, for `otp_6`
(`totalCount() = 1000000`) with `workerCount = 3` the three ranges are
`[0, 333334)`, `[333334, 666668)`, `[666668, 1000000)`. -/
theorem sequential_partition_complete :
    (∀ key en, ENUMERATORS key = some en → ∀ wc, 1 ≤ wc → wc ≤ 16 →
      ∀ k, k < en.totalCount →
        ∃! i, i < wc ∧ (indexRange en.totalCount wc i).1 ≤ k ∧
          k < (indexRange en.totalCount wc i).2) ∧
    indexRange 1000000 3 0 = (0, 333334) ∧
    indexRange 1000000 3 1 = (333334, 666668) ∧
    indexRange 1000000 3 2 = (666668, 1000000) := by
  refine ⟨?_, by decide, by decide, by decide⟩
  intro key en _hen wc h1 _h16 k hk
  have h0 : 0 < en.totalCount := lt_of_le_of_lt (Nat.zero_le k) hk
  have hw : 0 < wc := h1
  set total := en.totalCount with htot
  have hp : 0 < perWorker total wc := by
    unfold perWorker
    exact (Nat.one_le_div_iff hw).mpr (by omega)
  have hcov : total ≤ wc * perWorker total wc := le_mul_perWorker total wc h0 hw
  refine ⟨k / perWorker total wc, ⟨?_, ?_, ?_⟩, ?_⟩
  · exact (Nat.div_lt_iff_lt_mul hp).mpr (lt_of_lt_of_le hk hcov)
  · simp only [indexRange]
    exact (div_bounds k (perWorker total wc) hp).1
  · simp only [indexRange]
    exact Nat.lt_min.mpr ⟨(div_bounds k (perWorker total wc) hp).2, hk⟩
  · intro j hj
    obtain ⟨_, hj1, hj2⟩ := hj
    simp only [indexRange] at hj1 hj2
    have hj2a : k < j * perWorker total wc + perWorker total wc :=
      lt_of_lt_of_le hj2 (Nat.min_le_left _ _)
    have := Nat.div_eq_of_lt_le hj1 (by rw [Nat.succ_mul]; omega)
    omega

/-- Witness for `sequential_partition_complete`: in the `otp_6` scenario with
three workers, index 500000 is covered by exactly one worker. -/
theorem sequential_partition_complete_witness :
    ENUMERATORS "otp_6" = some ⟨1000000, otp6FromIndex⟩ ∧
    (∃! i, i < 3 ∧ (indexRange 1000000 3 i).1 ≤ 500000 ∧
      500000 < (indexRange 1000000 3 i).2) :=
  ⟨rfl, sequential_partition_complete.1 "otp_6" ⟨1000000, otp6FromIndex⟩ rfl 3 (by decide)
    (by decide) 500000 (by decide)⟩

/-- C9: Estimator correctness on the specified scenario: with `bits = 24`,
`workerCount = 4`, per-worker speed 1000 and the fixed assumption of 10
batches per second, `attemptsPerSecond = 4 * 1000 * 10 = 40000` and
`estimatedSeconds = (2^24 / 2) / 40000 = 209.7152` seconds. -/
theorem estimator_scenario :
    attemptsPerSecond 4 1000 = 40000 ∧ estimatedSeconds 24 4 1000 = 209.7152 := by
  constructor <;>
    norm_num [attemptsPerSecond, estimatedSeconds, averageAttempts, combinations]

/-- C10: every incoming message that is not a well-formed start command —
the message data missing or not an object, a start message lacking a
`schemeKey`, or one whose `target` is not a string — makes the worker post
no event of any kind and produce no candidate: it is silently ignored
(`noEvents` is the handler returning after at most a `console.error`). -/
theorem invalid_message_ignored (gens : String → Option (Nat → String)) :
    workerOnMessage gens WorkerMsg.invalid = WorkerRun.noEvents ∧
    (∀ d : StartData, d.schemeKey = "" →
      workerOnMessage gens (WorkerMsg.start d) = WorkerRun.noEvents) ∧
    (∀ d : StartData, d.target = JSVal.nonString →
      workerOnMessage gens (WorkerMsg.start d) = WorkerRun.noEvents) := by
  refine ⟨rfl, ?_, ?_⟩
  · intro d h
    simp [workerOnMessage, h]
  · intro d h
    by_cases hk : d.schemeKey = "" <;> simp [workerOnMessage, hk, h]

/-- Witness for `invalid_message_ignored`: a start message with an empty
scheme key and one with a non-string target are both ignored. -/
theorem invalid_message_ignored_witness :
    workerOnMessage (fun _ => none)
        (WorkerMsg.start ⟨"", JSVal.str "x", 0, 0, "", 0, []⟩) = WorkerRun.noEvents ∧
    workerOnMessage (fun _ => none)
        (WorkerMsg.start ⟨"uuid_v4", JSVal.nonString, 0, 0, "", 0, []⟩) = WorkerRun.noEvents :=
  ⟨(invalid_message_ignored (fun _ => none)).2.1 _ rfl,
   (invalid_message_ignored (fun _ => none)).2.2 _ rfl⟩

/-- The worker's Sequential-mode branch with a scheme key absent from
`ENUMERATORS`: it posts the unsupported-mode error, sets `running = false`,
posts `exhausted`, and returns. -/
theorem workerOnMessage_seq_noenum (gens : String → Option (Nat → String))
    (key t : String) (bs wid wc : Nat) (chunk : List String)
    (hkey : key ≠ "") (hen : ENUMERATORS key = none) :
    workerOnMessage gens (WorkerMsg.start ⟨key, JSVal.str t, bs, wid, "sequential", wc, chunk⟩)
      = WorkerRun.posts
          [WorkerEvent.error ("Sequential mode is not supported for scheme: " ++ key ++
              ". Use Random mode instead.") wid,
           WorkerEvent.exhausted wid] := by
  simp [workerOnMessage, hkey, hen]

/-- The worker's Random-mode branch with a scheme key absent from
`GENERATORS`: it posts the unknown-scheme error and returns. -/
theorem workerOnMessage_random_unknown (gens : String → Option (Nat → String))
    (key t : String) (bs wid wc : Nat) (chunk : List String)
    (hkey : key ≠ "") (hg : gens key = none) :
    workerOnMessage gens (WorkerMsg.start ⟨key, JSVal.str t, bs, wid, "random", wc, chunk⟩)
      = WorkerRun.posts
          [WorkerEvent.error ("Unknown scheme key: " ++ key ++
              ". Make sure the scheme is defined in both SCHEMES (schemes.js) and GENERATORS (app.js createWorkerCode).")
            wid] := by
  simp [workerOnMessage, hkey, hg]

/-- Counterexample to C3 as stated: a worker started in Sequential mode on
`uuid_v4` (which has no enumerator) posts an `error` event and then also
posts an `exhausted` event — it does report Exhausted after Error, and the
Error is not its last event. -/
theorem error_then_exhausted_counterexample :
    workerOnMessage (fun _ => none)
        (WorkerMsg.start ⟨"uuid_v4", JSVal.str "x", 1000, 0, "sequential", 2, []⟩)
      = WorkerRun.posts
          [WorkerEvent.error
            "Sequential mode is not supported for scheme: uuid_v4. Use Random mode instead." 0,
           WorkerEvent.exhausted 0] := by
  rfl

/-- Processing an `error` event appends to `workerErrors` in both branches
of the all-failed check. -/
theorem handleWorkerMessage_error_workerErrors (s : CoordState) (m : String) (wid : Nat) :
    (handleWorkerMessage s (WorkerEvent.error m wid)).workerErrors
      = s.workerErrors ++ [(wid, m)] := by
  simp only [handleWorkerMessage]
  split <;> rfl

/-- Processing an `error` event leaves `exhaustedWorkers` unchanged. -/
theorem handleWorkerMessage_error_exhaustedWorkers (s : CoordState) (m : String) (wid : Nat) :
    (handleWorkerMessage s (WorkerEvent.error m wid)).exhaustedWorkers
      = s.exhaustedWorkers := by
  simp only [handleWorkerMessage]
  split <;> rfl

/-- Processing an `exhausted` event leaves `workerErrors` unchanged. -/
theorem handleWorkerMessage_exhausted_workerErrors (s : CoordState) (wid : Nat) :
    (handleWorkerMessage s (WorkerEvent.exhausted wid)).workerErrors = s.workerErrors := by
  simp only [handleWorkerMessage]
  split <;> split <;> rfl

/-- Processing an `exhausted` event records the worker in the exhausted
set. -/
theorem handleWorkerMessage_exhausted_mem (s : CoordState) (wid : Nat) :
    wid ∈ (handleWorkerMessage s (WorkerEvent.exhausted wid)).exhaustedWorkers := by
  simp only [handleWorkerMessage]
  by_cases hw : wid ∈ s.exhaustedWorkers <;> simp only [hw, if_true, if_false, reduceIte] <;>
    split <;> simp [showResultFailed, stopSimulation, hw]

/-- C3 amended: an unrecoverable setup error makes the worker halt
immediately, producing no candidates and no Progress or Match events; but in
Sequential mode a missing enumerator makes it post `error` immediately
followed by `exhausted` (so the coordinator records the same worker both in
`workerErrors` and in `exhaustedWorkers`, contributing to the termination
count twice); only in Random mode does an unknown scheme key yield exactly
one `error` event and nothing else. -/
theorem setup_error_behavior (gens : String → Option (Nat → String))
    (key t m : String) (bs wid wc : Nat) (chunk : List String)
    (s : CoordState) (hkey : key ≠ "") :
    (ENUMERATORS key = none →
      workerOnMessage gens
          (WorkerMsg.start ⟨key, JSVal.str t, bs, wid, "sequential", wc, chunk⟩)
        = WorkerRun.posts
            [WorkerEvent.error ("Sequential mode is not supported for scheme: " ++ key ++
                ". Use Random mode instead.") wid,
             WorkerEvent.exhausted wid]) ∧
    (gens key = none →
      workerOnMessage gens
          (WorkerMsg.start ⟨key, JSVal.str t, bs, wid, "random", wc, chunk⟩)
        = WorkerRun.posts
            [WorkerEvent.error ("Unknown scheme key: " ++ key ++
                ". Make sure the scheme is defined in both SCHEMES (schemes.js) and GENERATORS (app.js createWorkerCode).")
              wid]) ∧
    ((wid, m) ∈ (coordFold s [WorkerEvent.error m wid, WorkerEvent.exhausted wid]).workerErrors ∧
      wid ∈ (coordFold s [WorkerEvent.error m wid, WorkerEvent.exhausted wid]).exhaustedWorkers) := by
  refine ⟨fun hen => workerOnMessage_seq_noenum gens key t bs wid wc chunk hkey hen,
    fun hg => workerOnMessage_random_unknown gens key t bs wid wc chunk hkey hg, ?_, ?_⟩ <;>
    simp only [coordFold, List.foldl_cons, List.foldl_nil]
  · rw [handleWorkerMessage_exhausted_workerErrors, handleWorkerMessage_error_workerErrors]
    exact List.mem_append_right _ (List.mem_singleton.mpr rfl)
  · exact handleWorkerMessage_exhausted_mem _ _

/-- Witness for `setup_error_behavior`: the concrete `uuid_v4` instantiation
of both setup-error branches and of the double counting. -/
theorem setup_error_behavior_witness :
    workerOnMessage (fun _ => none)
        (WorkerMsg.start ⟨"uuid_v4", JSVal.str "x", 1000, 0, "sequential", 2, []⟩)
      = WorkerRun.posts
          [WorkerEvent.error
            "Sequential mode is not supported for scheme: uuid_v4. Use Random mode instead." 0,
           WorkerEvent.exhausted 0] ∧
    workerOnMessage (fun _ => none)
        (WorkerMsg.start ⟨"uuid_v4", JSVal.str "x", 1000, 0, "random", 2, []⟩)
      = WorkerRun.posts
          [WorkerEvent.error
            "Unknown scheme key: uuid_v4. Make sure the scheme is defined in both SCHEMES (schemes.js) and GENERATORS (app.js createWorkerCode)."
            0] ∧
    (0, "boom") ∈ (coordFold (initCoordState 4)
        [WorkerEvent.error "boom" 0, WorkerEvent.exhausted 0]).workerErrors :=
  ⟨(setup_error_behavior (fun _ => none) "uuid_v4" "x" "boom" 1000 0 2 [] (initCoordState 4)
      (by decide)).1 rfl,
   (setup_error_behavior (fun _ => none) "uuid_v4" "x" "boom" 1000 0 2 [] (initCoordState 4)
      (by decide)).2.1 rfl,
   (setup_error_behavior (fun _ => none) "uuid_v4" "x" "boom" 1000 0 2 [] (initCoordState 4)
      (by decide)).2.2.1⟩

/-- Counterexample to C4 as stated: starting Sequential mode on `uuid_v4`
(a scheme with no enumerator) is not rejected by `startSimulation` — workers
are created and the run begins; the unsupported-mode condition is only
detected later, inside each worker. -/
theorem unsupported_mode_spawns_counterexample :
    startSimulation ⟨some "x", false, "sequential", 2, 1000, "uuid_v4", none⟩
        ≠ StartResult.noSpawn ∧
    ENUMERATORS "uuid_v4" = none := by
  constructor
  · decide
  · rfl

/-- C4 amended: the `AlreadyRunningError`, `InvalidTargetError` and
`MissingWordlistError` / `EmptyWordlistError` conditions are checked
synchronously by `startSimulation` before any worker is created; but the
`UnsupportedModeError` condition (Sequential mode on a scheme without an
enumerator) is not checked there: the workers are spawned — one start message
per `i < workerCount` — and each one reports the unsupported-mode error (then
`exhausted`) asynchronously. -/
theorem config_validation_behavior :
    (∀ cfg : StartConfig,
      cfg.targetValue = none ∨ cfg.isRunning = true ∨
        (cfg.attackMethod = "wordlist" ∧ (cfg.wordlistData.getD []).length = 0) →
      startSimulation cfg = StartResult.noSpawn) ∧
    (∀ (cfg : StartConfig) (msgs : List StartData) (gens : String → Option (Nat → String)),
      startSimulation cfg = StartResult.spawned msgs →
      cfg.attackMethod = "sequential" → cfg.selectedScheme ≠ "" →
      ENUMERATORS cfg.selectedScheme = none →
      msgs.length = cfg.workerCount ∧
      ∀ m ∈ msgs, workerOnMessage gens (WorkerMsg.start m)
          = WorkerRun.posts
              [WorkerEvent.error ("Sequential mode is not supported for scheme: " ++
                  cfg.selectedScheme ++ ". Use Random mode instead.") m.workerId,
               WorkerEvent.exhausted m.workerId]) := by
  constructor
  · intro cfg h
    unfold startSimulation
    split
    · rfl
    · split
      · rfl
      · rcases h with h | h | h
        · exact absurd (Or.inl h) (by assumption)
        · exact absurd (Or.inr h) (by assumption)
        · exact absurd h (by assumption)
  · intro cfg msgs gens hsp hmethod hscheme hen
    unfold startSimulation at hsp
    split at hsp
    · exact absurd hsp (by simp)
    · split at hsp
      · exact absurd hsp (by simp)
      · injection hsp with hmsgs
        subst hmsgs
        constructor
        · simp
        · intro m hm
          obtain ⟨i, _, rfl⟩ := List.mem_map.mp hm
          have hwl : cfg.attackMethod ≠ "wordlist" := by
            rw [hmethod]
            decide
          simp only [hmethod, if_neg, reduceIte]
          rw [workerOnMessage_seq_noenum gens cfg.selectedScheme (cfg.targetValue.getD "")
            cfg.batchSize i cfg.workerCount _ hscheme hen]

/-- Witness for `config_validation_behavior`: a start with no target is
rejected before spawning, and the concrete Sequential `uuid_v4` start spawns
two workers whose first one reports the unsupported-mode error. -/
theorem config_validation_behavior_witness :
    startSimulation ⟨none, false, "random", 2, 1000, "uuid_v4", none⟩
        = StartResult.noSpawn ∧
    workerOnMessage (fun _ => none)
        (WorkerMsg.start ⟨"uuid_v4", JSVal.str "x", 1000, 0, "sequential", 2, []⟩)
      = WorkerRun.posts
          [WorkerEvent.error
            "Sequential mode is not supported for scheme: uuid_v4. Use Random mode instead." 0,
           WorkerEvent.exhausted 0] :=
  ⟨config_validation_behavior.1 _ (Or.inl rfl),
   (config_validation_behavior.2 ⟨some "x", false, "sequential", 2, 1000, "uuid_v4", none⟩
      [⟨"uuid_v4", JSVal.str "x", 1000, 0, "sequential", 2, []⟩,
       ⟨"uuid_v4", JSVal.str "x", 1000, 1, "sequential", 2, []⟩]
      (fun _ => none) (by decide) rfl (by decide) rfl).2
      ⟨"uuid_v4", JSVal.str "x", 1000, 0, "sequential", 2, []⟩ (by decide)⟩

/-- Folding error events from every worker: once the pushed error count
reaches the worker count, the all-failed branch calls `showResult(false)`
with the defaulted `maxAttempts` reason. -/
theorem all_errors_aux :
    ∀ (errs : List (String × Nat)) (s : CoordState), errs ≠ [] → 0 < s.workers →
      s.workerErrors.length + errs.length = s.workers →
      (coordFold s (errs.map fun p => WorkerEvent.error p.1 p.2)).outcome
        = Outcome.failed FailReason.maxAttempts := by
  intro errs
  induction errs with
  | nil =>
    intro s h _ _
    exact absurd rfl h
  | cons p rest ih =>
    intro s _ hw hsum
    rcases eq_or_ne rest [] with hrest | hrest
    · subst hrest
      simp only [List.map_cons, List.map_nil, coordFold, List.foldl_cons, List.foldl_nil,
        handleWorkerMessage]
      rw [if_pos]
      · rfl
      · refine ⟨hw, ?_⟩
        simp only [List.length_cons, List.length_nil] at hsum
        simp only [List.length_append, List.length_singleton]
        omega
    · simp only [List.map_cons, coordFold, List.foldl_cons]
      have hlen : 1 ≤ rest.length := List.length_pos.mpr hrest
      have step : handleWorkerMessage s (WorkerEvent.error p.1 p.2)
          = { s with workerErrors := s.workerErrors ++ [(p.2, p.1)] } := by
        simp only [handleWorkerMessage]
        rw [if_neg]
        rintro ⟨_, h2⟩
        simp only [List.length_append, List.length_singleton, List.length_cons,
          List.length_nil] at h2 hsum
        omega
      rw [step]
      refine ih _ hrest (by simp [hw]) ?_
      simp only [List.length_append, List.length_singleton, List.length_cons,
        List.length_nil] at hsum ⊢
      omega

/-- Counterexample to C5 as stated: with 2 workers, after both report an
Error the run terminates as a failure, but its surfaced reason is the
defaulted `maxAttempts` one — exactly the reason a budget cutoff produces,
and the rendered message is the budget message, not "all workers failed"
(no such reason exists in the code). -/
theorem all_errors_reason_counterexample :
    (coordFold (initCoordState 2)
        [WorkerEvent.error "boom" 0, WorkerEvent.error "boom" 1]).outcome
      = Outcome.failed FailReason.maxAttempts ∧
    (maxAttemptsCheck 100 { initCoordState 2 with totalAttempts := 100 }).outcome
      = Outcome.failed FailReason.maxAttempts ∧
    failureMessage FailReason.maxAttempts
      = "Maximum attempts reached without finding a match." := by
  refine ⟨by decide, by decide, rfl⟩

/-- C5 amended: when every worker has reported an Error (and no match
occurred), the run terminates as a failure, but with the defaulted
`maxAttempts` reason — the same reason (and surfaced message) as the
budget cutoff — which is distinct from the `exhausted` reason; the code has
no separate "all workers failed" reason. -/
theorem all_errors_terminate (n : Nat) (hn : 0 < n) (errs : List (String × Nat))
    (hlen : errs.length = n) :
    (coordFold (initCoordState n) (errs.map fun p => WorkerEvent.error p.1 p.2)).outcome
        = Outcome.failed FailReason.maxAttempts ∧
    (∀ (s : CoordState) (maxA : Nat), 0 < maxA → maxA ≤ s.totalAttempts →
      (maxAttemptsCheck maxA s).outcome = Outcome.failed FailReason.maxAttempts) ∧
    FailReason.maxAttempts ≠ FailReason.exhausted := by
  refine ⟨?_, ?_, by decide⟩
  · apply all_errors_aux
    · intro h
      rw [h] at hlen
      simp at hlen
      omega
    · exact hn
    · simp [initCoordState, hlen]
  · intro s maxA h1 h2
    unfold maxAttemptsCheck
    rw [if_pos ⟨h1, h2⟩]
    rfl

/-- Witness for `all_errors_terminate`: the two-worker instance. -/
theorem all_errors_terminate_witness :
    (coordFold (initCoordState 2)
        (([("a", 0), ("b", 1)] : List (String × Nat)).map
          fun p => WorkerEvent.error p.1 p.2)).outcome
      = Outcome.failed FailReason.maxAttempts ∧
    (maxAttemptsCheck 5 { initCoordState 2 with totalAttempts := 7 }).outcome
      = Outcome.failed FailReason.maxAttempts :=
  ⟨(all_errors_terminate 2 (by decide) [("a", 0), ("b", 1)] (by decide)).1,
   (all_errors_terminate 2 (by decide) [("a", 0), ("b", 1)] (by decide)).2.1
     { initCoordState 2 with totalAttempts := 7 } 5 (by decide) (by decide)⟩

/-- A single event advances `totalAttempts` by exactly its `attempts` field
(0 for everything but `progress`). -/
theorem handleWorkerMessage_totalAttempts (s : CoordState) (e : WorkerEvent) :
    (handleWorkerMessage s e).totalAttempts = s.totalAttempts + eventAttempts e := by
  cases e <;>
    simp only [handleWorkerMessage, eventAttempts, showResultFound, showResultFailed,
      stopSimulation] <;>
    first
      | rfl
      | (split <;> rfl)
      | (split <;> split <;> rfl)

/-- Folding any event sequence adds exactly the sum of the `attempts`
fields. -/
theorem coordFold_totalAttempts (es : List WorkerEvent) :
    ∀ s : CoordState,
      (coordFold s es).totalAttempts = s.totalAttempts + (es.map eventAttempts).sum := by
  induction es with
  | nil => intro s; simp [coordFold]
  | cons e es ih =>
    intro s
    simp only [coordFold, List.foldl_cons, List.map_cons, List.sum_cons]
    have h := ih (handleWorkerMessage s e)
    simp only [coordFold] at h
    rw [h, handleWorkerMessage_totalAttempts]
    omega

/-- C6: after the coordinator processes any finite sequence of Progress
events (in any arrival order), `totalAttempts` equals the sum of their
`attempts` fields; it is monotonically non-decreasing, advanced only by
Progress events (no other event type changes it), and invariant under
permutation of the event sequence. -/
theorem total_attempts_progress_sum :
    (∀ (s : CoordState) (es : List WorkerEvent), (∀ x ∈ es, isProgressEv x = true) →
      (coordFold s es).totalAttempts = s.totalAttempts + (es.map eventAttempts).sum) ∧
    (∀ (s : CoordState) (e : WorkerEvent),
      s.totalAttempts ≤ (handleWorkerMessage s e).totalAttempts) ∧
    (∀ (s : CoordState) (e : WorkerEvent), isProgressEv e = false →
      (handleWorkerMessage s e).totalAttempts = s.totalAttempts) ∧
    (∀ (s : CoordState) (es es' : List WorkerEvent), es.Perm es' →
      (coordFold s es).totalAttempts = (coordFold s es').totalAttempts) := by
  refine ⟨fun s es _ => coordFold_totalAttempts es s, ?_, ?_, ?_⟩
  · intro s e
    rw [handleWorkerMessage_totalAttempts]
    omega
  · intro s e he
    rw [handleWorkerMessage_totalAttempts]
    cases e <;> simp_all [isProgressEv, eventAttempts]
  · intro s es es' hperm
    rw [coordFold_totalAttempts, coordFold_totalAttempts, (hperm.map eventAttempts).sum_eq]

/-- Witness for `total_attempts_progress_sum`: two progress events of 3 and
4 attempts yield a total of 7, and an `exhausted` event leaves the total
unchanged. -/
theorem total_attempts_progress_sum_witness :
    (coordFold (initCoordState 2)
        [WorkerEvent.progress 3 (some "a") 0, WorkerEvent.progress 4 (some "b") 1]).totalAttempts
      = (initCoordState 2).totalAttempts
        + ([WorkerEvent.progress 3 (some "a") 0,
            WorkerEvent.progress 4 (some "b") 1].map eventAttempts).sum ∧
    (handleWorkerMessage (initCoordState 2) (WorkerEvent.exhausted 0)).totalAttempts
      = (initCoordState 2).totalAttempts :=
  ⟨total_attempts_progress_sum.1 (initCoordState 2) _ (by decide),
   total_attempts_progress_sum.2.2.1 (initCoordState 2) (WorkerEvent.exhausted 0) (by decide)⟩

/-- After `showResult(true, ...)` has run (worker list cleared), every later
event leaves the outcome a match: the Exhausted / Error termination checks
are disabled by `workers = 0`, and a later Match can only replace the value. -/
theorem found_stable (es : List WorkerEvent) :
    ∀ s : CoordState, s.workers = 0 → (∃ v, s.outcome = Outcome.found v) →
      ∃ w, (coordFold s es).outcome = Outcome.found w := by
  induction es with
  | nil =>
    intro s _ hv
    exact hv
  | cons e es ih =>
    intro s hw hv
    simp only [coordFold, List.foldl_cons]
    have step : (handleWorkerMessage s e).workers = 0 ∧
        (∃ v, (handleWorkerMessage s e).outcome = Outcome.found v) := by
      obtain ⟨v, hv⟩ := hv
      cases e with
      | progress a l w => exact ⟨hw, v, hv⟩
      | matched w wid => exact ⟨rfl, w, rfl⟩
      | error m wid =>
        simp only [handleWorkerMessage]
        rw [if_neg]
        · exact ⟨hw, v, hv⟩
        · rintro ⟨h1, _⟩
          omega
      | exhausted wid =>
        simp only [handleWorkerMessage]
        rw [if_neg]
        · exact ⟨hw, v, hv⟩
        · rintro ⟨h1, _⟩
          omega
      | unknown wid => exact ⟨hw, v, hv⟩
    exact ih _ step.1 step.2

/-- C8 amended: once a Match event is processed the run is irreversibly in a
matched outcome — no later Progress, Exhausted, Error or Match event can turn
it into a failure or clear it (Exhausted / Error checks are disabled because
`stopSimulation` emptied the worker list) — but a later Match event overwrites
the recorded matched value and a later Progress event still increments
`totalAttempts`, because `handleWorkerMessage` never checks `isRunning`. -/
theorem match_precedence_amended (s : CoordState) (v : String) (wid : Nat)
    (es : List WorkerEvent) :
    ∃ w, (coordFold (handleWorkerMessage s (WorkerEvent.matched v wid)) es).outcome
        = Outcome.found w := by
  apply found_stable
  · rfl
  · exact ⟨v, rfl⟩

/-- Counterexample to C8 as stated: after a Match for `"a"` is processed, a
late Match for `"b"` changes the recorded terminal state to `found "b"`, and
a late Progress event changes the recorded `totalAttempts` from 0 to 5 —
late events are not ignored. -/
theorem late_event_changes_state_counterexample :
    (coordFold (initCoordState 2)
        [WorkerEvent.matched "a" 0, WorkerEvent.matched "b" 1]).outcome
      = Outcome.found "b" ∧
    (coordFold (initCoordState 2) [WorkerEvent.matched "a" 0]).outcome
      = Outcome.found "a" ∧
    (coordFold (initCoordState 2)
        [WorkerEvent.matched "a" 0, WorkerEvent.progress 5 (some "x") 1]).totalAttempts = 5 ∧
    (coordFold (initCoordState 2) [WorkerEvent.matched "a" 0]).totalAttempts = 0 := by
  refine ⟨by decide, by decide, by decide, by decide⟩

/-- Taking `min n (length)` elements is the same as taking `n`. -/
theorem take_min_length {α : Type} (l : List α) (n : Nat) :
    l.take (min n l.length) = l.take n := by
  rcases Nat.le_total n l.length with h | h
  · rw [Nat.min_eq_left h]
  · rw [Nat.min_eq_right h, List.take_of_length_le h,
      List.take_of_length_le (Nat.le_refl _)]

/-- A `slice(s, min(s + cs, length))` window is drop-then-take. -/
theorem drop_take_window {α : Type} (l : List α) (s cs : Nat) :
    (l.drop s).take (min (s + cs) l.length - s) = (l.drop s).take cs := by
  rcases Nat.le_total s l.length with h | h
  · have h1 : min (s + cs) l.length - s = min cs (l.length - s) := by omega
    rw [h1]
    have h2 : (l.drop s).length = l.length - s := List.length_drop s l
    rw [← h2, take_min_length]
  · have h1 : min (s + cs) l.length - s = 0 := by omega
    have h2 : l.drop s = [] := List.drop_eq_nil_of_le h
    rw [h1, h2]
    simp

/-- `wordlistChunk` in closed form: drop `i * chunkSize`, take `chunkSize`. -/
theorem wordlistChunk_eq (words : List String) (wc i : Nat) :
    wordlistChunk words wc i =
      (words.drop (i * ((words.length + wc - 1) / wc))).take
        ((words.length + wc - 1) / wc) := by
  simp only [wordlistChunk]
  exact drop_take_window words (i * ((words.length + wc - 1) / wc))
    ((words.length + wc - 1) / wc)

/-- The concatenation of successive width-`cs` windows is a prefix. -/
theorem join_chunks {α : Type} (l : List α) (cs : Nat) :
    ∀ n, ((List.range n).map fun i => (l.drop (i * cs)).take cs).flatten = l.take (n * cs) := by
  intro n
  induction n with
  | zero => simp
  | succ n ih =>
    rw [List.range_succ, List.map_append, List.flatten_append, ih]
    simp only [List.map_cons, List.map_nil, List.flatten_cons, List.flatten_nil,
      List.append_nil]
    rw [← List.take_add]
    congr 1
    ring

/-- C7: Wordlist partition completeness: for every non-empty wordlist and
every `workerCount` in `[1,16]`, the per-worker slices (`chunkSize =
ceil(length / workerCount)`, worker `i` taking the window
`[i * chunkSize, min((i+1) * chunkSize, length))`) are contiguous and
non-overlapping, and their concatenation in worker order is the original
list in its original order. -/
theorem wordlist_partition_concat (words : List String) (wc : Nat)
    (hne : words ≠ []) (h1 : 1 ≤ wc) (_h16 : wc ≤ 16) :
    ((List.range wc).map (wordlistChunk words wc)).flatten = words := by
  have hrw : (List.range wc).map (wordlistChunk words wc)
      = (List.range wc).map fun i =>
          (words.drop (i * ((words.length + wc - 1) / wc))).take
            ((words.length + wc - 1) / wc) :=
    List.map_congr_left fun i _ => wordlistChunk_eq words wc i
  rw [hrw, join_chunks]
  apply List.take_of_length_le
  have h0 : 0 < words.length := List.length_pos.mpr hne
  have := le_mul_perWorker words.length wc h0 h1
  unfold perWorker at this
  omega

/-- Witness for `wordlist_partition_concat`: a three-entry wordlist split
across two workers reassembles in order. -/
theorem wordlist_partition_concat_witness :
    ((List.range 2).map (wordlistChunk ["a", "b", "c"] 2)).flatten = ["a", "b", "c"] :=
  wordlist_partition_concat ["a", "b", "c"] 2 (by decide) (by decide) (by decide)

/-- A sequential run whose remaining range contains the target produces some
progress events and then exactly one `matched` event carrying the target,
with nothing after it. -/
theorem runSequentialBatch_match (f : Nat → String) (target : String) (bs wid : Nat)
    (hbs : 0 < bs) (e : Nat) :
    ∀ n s, e - s ≤ n → (∃ i, s ≤ i ∧ i < e ∧ f i = target) →
      ∃ ps, (∀ x ∈ ps, isProgressEv x = true) ∧
        runSequentialBatch f target bs wid s e = ps ++ [WorkerEvent.matched target wid] := by
  intro n
  induction n with
  | zero =>
    intro s h0 hex
    obtain ⟨i, h1, h2, _⟩ := hex
    omega
  | succ n ih =>
    intro s hle hex
    obtain ⟨i0, hi1, hi2, hi3⟩ := hex
    have hse : s < e := by omega
    rw [runSequentialBatch]
    rw [dif_neg (by omega : ¬ e ≤ s), dif_neg (by omega : ¬ bs = 0)]
    rcases hfind : (List.range' s (min (s + bs) e - s)).find? (fun i => f i == target)
        with _ | j
    · have hnone := List.find?_eq_none.mp hfind
      have hbound : min (s + bs) e ≤ i0 := by
        by_contra hc
        push_neg at hc
        have hmem : i0 ∈ List.range' s (min (s + bs) e - s) := by
          rw [List.mem_range'_1]
          omega
        exact hnone i0 hmem (by simp [hi3])
      have hrec := ih (min (s + bs) e) (by omega) ⟨i0, by omega, hi2, hi3⟩
      obtain ⟨ps, hps, heq⟩ := hrec
      refine ⟨WorkerEvent.progress (min (s + bs) e - s) (some (f (min (s + bs) e - 1))) wid
        :: ps, ?_, ?_⟩
      · intro x hx
        rcases List.mem_cons.mp hx with h | h
        · rw [h]
          rfl
        · exact hps x h
      · simp only [hfind]
        rw [heq]
        simp
    · have hj := List.find?_some hfind
      have hjt : f j = target := by simpa using hj
      refine ⟨[], ?_, ?_⟩
      · intro x hx
        cases hx
      · simp only [hfind, hjt]
        rfl

/-- `runWordlistBatch` is `runSequentialBatch` reading `words[i]` over
`[offset, words.length)`. -/
theorem runWordlistBatch_eq_seq (words : List String) (target : String) (bs wid : Nat) :
    ∀ n off, words.length - off ≤ n →
      runWordlistBatch words target bs wid off =
        runSequentialBatch (fun i => words.getD i "") target bs wid off words.length := by
  intro n
  induction n with
  | zero =>
    intro off h
    rw [runWordlistBatch, runSequentialBatch]
    rw [dif_pos (by omega : words.length ≤ off), dif_pos (by omega : words.length ≤ off)]
  | succ n ih =>
    intro off h
    rcases Nat.lt_or_ge off words.length with hoff | hoff
    · rw [runWordlistBatch, runSequentialBatch]
      rw [dif_neg (by omega : ¬ words.length ≤ off), dif_neg (by omega : ¬ words.length ≤ off)]
      rcases eq_or_ne bs 0 with hbs | hbs
      · rw [dif_pos hbs, dif_pos hbs]
      · rw [dif_neg hbs, dif_neg hbs]
        rcases hfind : (List.range' off (min (off + bs) words.length - off)).find?
            (fun i => words.getD i "" == target) with _ | j
        · simp only [hfind]
          rw [ih (min (off + bs) words.length) (by omega)]
        · simp only [hfind]
    · rw [runWordlistBatch, runSequentialBatch]
      rw [dif_pos hoff, dif_pos hoff]

/-- A random batch containing the target posts exactly the `matched` event
and does not schedule a further batch. -/
theorem runBatch_match (g : Nat → String) (target : String) (bs wid off : Nat)
    (hr : ∃ j, j < bs ∧ g (off + j) = target) :
    runBatch g target bs wid off = ([WorkerEvent.matched target wid], false) := by
  unfold runBatch
  rcases hfind : (List.range bs).find? (fun j => g (off + j) == target) with _ | j
  · obtain ⟨j, hj, hjt⟩ := hr
    have := List.find?_eq_none.mp hfind j (List.mem_range.mpr hj)
    simp [hjt] at this
  · have hj := List.find?_some hfind
    have hjt : g (off + j) = target := by simpa using hj
    simp only [hfind, hjt]

/-- C2: in every mode, a worker that finds a candidate equal to the target
emits exactly one `Match{value}` event carrying that candidate and halts: in
Random mode the batch containing the hit posts only the `matched` event and
schedules no further batch (no Progress for the partial batch, no further
candidates); in Sequential and Wordlist mode the full remaining trace is some
earlier full-batch Progress events followed by exactly one final `matched`
event, with no event of any kind after it. -/
theorem match_halts_worker (g f : Nat → String) (words : List String) (target : String)
    (bs wid off s e wOff : Nat) (hbs : 0 < bs)
    (hr : ∃ j, j < bs ∧ g (off + j) = target)
    (hs : ∃ i, s ≤ i ∧ i < e ∧ f i = target)
    (hw : ∃ i, wOff ≤ i ∧ i < words.length ∧ words.getD i "" = target) :
    runBatch g target bs wid off = ([WorkerEvent.matched target wid], false) ∧
    (∃ ps, (∀ x ∈ ps, isProgressEv x = true) ∧
      runSequentialBatch f target bs wid s e = ps ++ [WorkerEvent.matched target wid]) ∧
    (∃ ps, (∀ x ∈ ps, isProgressEv x = true) ∧
      runWordlistBatch words target bs wid wOff = ps ++ [WorkerEvent.matched target wid]) := by
  refine ⟨runBatch_match g target bs wid off hr,
    runSequentialBatch_match f target bs wid hbs e (e - s) s (Nat.le_refl _) hs, ?_⟩
  rw [runWordlistBatch_eq_seq words target bs wid (words.length - wOff) wOff (Nat.le_refl _)]
  exact runSequentialBatch_match (fun i => words.getD i "") target bs wid hbs words.length
    (words.length - wOff) wOff (Nat.le_refl _) hw

/-- Witness for `match_halts_worker`: the decimal-counter stream hits the
target `"5"` in all three modes. -/
theorem match_halts_worker_witness :
    runBatch (fun i => toString i) "5" 2 0 4 = ([WorkerEvent.matched "5" 0], false) ∧
    (∃ ps, (∀ x ∈ ps, isProgressEv x = true) ∧
      runSequentialBatch (fun i => toString i) "5" 2 0 0 7
        = ps ++ [WorkerEvent.matched "5" 0]) ∧
    (∃ ps, (∀ x ∈ ps, isProgressEv x = true) ∧
      runWordlistBatch ["3", "4", "5", "6"] "5" 2 0 0
        = ps ++ [WorkerEvent.matched "5" 0]) :=
  match_halts_worker (fun i => toString i) (fun i => toString i) ["3", "4", "5", "6"] "5"
    2 0 4 0 7 0 (by decide) ⟨1, by decide⟩ ⟨5, by decide⟩ ⟨2, by decide⟩
